import Mathlib

/-!
Verification development for the Scrapping-Site crawler.

This file gives a shallow embedding of the crawl engine in src/crawler.py
and the asset mirroring subsystem in src/mirror_assets.py (plus the retry
helper in src/crawler_excel.py), and settles the frozen claims about them.

Conventions of the embedding:
- filesystem paths and URL paths are modelled as lists of segments
  (the pieces between slashes);
- real time is modelled by rational-number timestamps, with time.sleep
  assumed exact and the monotonic clock read again right after a sleep
  returning the wake-up instant (an idealisation favourable to the code);
- the worker loop is modelled sequentially: one worker draining the
  frontier, every page fetch succeeding with a 200 text/html response,
  and the per-page link lists already filtered by the domain and
  language admission predicates (those filters are orthogonal to the
  frontier bookkeeping the claims are about);
- HTTP fetch outcomes are supplied by oracle functions, so theorems
  quantify over all possible network behaviours.
-/

/-! ## Path segment utilities

Models of os.path.relpath, os.path.join plus normalisation, and the
dot-segment removal performed by urllib.parse.urljoin, all on segment
lists.
-/

/-- One step of dot-segment resolution: "." is dropped, ".." pops the
last accumulated segment, anything else is appended. -/
def rdStep (acc : List String) (s : String) : List String :=
  if s = "." then acc else if s = ".." then acc.dropLast else acc ++ [s]

/-- Resolve "." and ".." segments left to right, as os.path.normpath and
the urljoin dot-segment removal do for paths below the root. -/
def resolveDots (l : List String) : List String :=
  l.foldl rdStep []

/-- A segment that is neither "." nor "..". -/
def cleanSeg (s : String) : Bool :=
  !(s == ".") && !(s == "..")

/-- Length of the longest common prefix of two segment lists, as
os.path.relpath computes it. -/
def cpl : List String → List String → Nat
  | a :: as, b :: bs => if a = b then cpl as bs + 1 else 0
  | _, _ => 0

/-- Model of os.path.relpath(path, start) on segment lists: climb out of
the non-shared part of start with ".." segments, then descend into path. -/
def relpathSegs (path start : List String) : List String :=
  List.replicate (start.length - cpl path start) ".." ++ path.drop (cpl path start)

theorem foldl_rdStep_clean (l : List String) (acc : List String)
    (h : l.all cleanSeg) : l.foldl rdStep acc = acc ++ l := by
  induction l generalizing acc with
  | nil => simp
  | cons s rest ih =>
    simp only [List.all_cons, Bool.and_eq_true] at h
    have hs : rdStep acc s = acc ++ [s] := by
      unfold rdStep cleanSeg at *
      rcases h with ⟨hs, _⟩
      simp only [Bool.and_eq_true, Bool.not_eq_true', beq_eq_false_iff_ne] at hs
      rw [if_neg hs.1, if_neg hs.2]
    rw [List.foldl_cons, hs, ih _ h.2, List.append_assoc]
    rfl

theorem foldl_rdStep_replicate (n : Nat) (acc : List String) :
    (List.replicate n "..").foldl rdStep acc = acc.take (acc.length - n) := by
  induction n generalizing acc with
  | zero => simp
  | succ n ih =>
    rw [List.replicate_succ, List.foldl_cons]
    have hstep : rdStep acc ".." = acc.dropLast := by
      unfold rdStep
      rw [if_neg (by decide), if_pos rfl]
    rw [hstep, ih, List.dropLast_eq_take, List.take_take, List.length_take]
    congr 1
    omega

theorem cpl_le_left (a b : List String) : cpl a b ≤ a.length := by
  induction a generalizing b with
  | nil => simp [cpl]
  | cons x xs ih =>
    cases b with
    | nil => simp [cpl]
    | cons y ys =>
      unfold cpl
      by_cases h : x = y
      · rw [if_pos h]
        simpa using ih ys
      · rw [if_neg h]
        simp

theorem cpl_le_right (a b : List String) : cpl a b ≤ b.length := by
  induction a generalizing b with
  | nil => simp [cpl]
  | cons x xs ih =>
    cases b with
    | nil => simp [cpl]
    | cons y ys =>
      unfold cpl
      by_cases h : x = y
      · rw [if_pos h]
        simpa using ih ys
      · rw [if_neg h]
        simp

theorem cpl_take_eq (a b : List String) :
    a.take (cpl a b) = b.take (cpl a b) := by
  induction a generalizing b with
  | nil => simp [cpl]
  | cons x xs ih =>
    cases b with
    | nil => simp [cpl]
    | cons y ys =>
      unfold cpl
      by_cases h : x = y
      · rw [if_pos h]
        simp [h, ih ys]
      · rw [if_neg h]
        simp

/-- Round trip of relative-path computation: joining a relative path back
onto the directory it was computed from, then normalising, recovers the
target path, provided neither list contains dot segments. -/
theorem resolveDots_relpath (path start : List String)
    (hp : path.all cleanSeg) (hs : start.all cleanSeg) :
    resolveDots (start ++ relpathSegs path start) = path := by
  unfold resolveDots relpathSegs
  rw [List.foldl_append, List.foldl_append]
  rw [show (List.foldl rdStep [] start) = [] ++ start from foldl_rdStep_clean start [] hs]
  rw [List.nil_append, foldl_rdStep_replicate]
  have hle : cpl path start ≤ start.length := cpl_le_right path start
  have htake : start.length - (start.length - cpl path start) = cpl path start := by omega
  rw [htake]
  have hdropclean : (path.drop (cpl path start)).all cleanSeg := by
    rw [List.all_eq_true] at hp ⊢
    intro x hx
    exact hp x (List.drop_subset _ _ hx)
  rw [foldl_rdStep_clean _ _ hdropclean]
  rw [← cpl_take_eq, List.take_append_drop]

/-! ## URL model and AssetMirror path derivation

A URL is a host plus a list of path segments; dirSlash records whether
the textual path ended with a slash. Queries, fragments and schemes are
outside the model (the code strips fragments before joining and the
claims do not depend on them).
-/

structure Url where
  host : String
  segs : List String
  dirSlash : Bool
deriving DecidableEq

/-- Split a character list at every dot, as str.split(".") does. -/
def splitDots : List Char → List (List Char)
  | [] => [[]]
  | c :: rest =>
    if c = '.' then [] :: splitDots rest
    else
      match splitDots rest with
      | [] => [[c]]
      | g :: gs => (c :: g) :: gs

/-- Number of leading empty groups, equal to the number of leading dots
of the original name. -/
def leadCount : List (List Char) → Nat
  | [] :: rest => leadCount rest + 1
  | _ => 0

/-- ASCII lowercase of one character, as str.lower does on ASCII. -/
def lowerChar (c : Char) : Char :=
  if 'A' ≤ c ∧ c ≤ 'Z' then Char.ofNat (c.toNat + 32) else c

/-- Model of the _ext helper in mirror_assets.py: the extension part of
os.path.splitext applied to the final path component, lowercased.
A dot run at the very start of the name never yields an extension. -/
def extOf (s : String) : String :=
  let parts := splitDots s.toList
  if 2 ≤ parts.length ∧ leadCount parts < parts.length - 1 then
    String.mk ('.' :: (parts.getLastD []).map lowerChar)
  else
    ""

def IMAGE_EXT : List String :=
  [".png", ".jpg", ".jpeg", ".gif", ".webp", ".svg", ".ico", ".bmp", ".tif", ".tiff", ".avif"]

def CSS_EXT : List String := [".css"]

def JS_EXT : List String := [".js", ".mjs"]

def FONT_EXT : List String := [".woff", ".woff2", ".ttf", ".otf", ".eot"]

def MEDIA_EXT : List String := [".mp4", ".webm", ".mp3", ".ogg", ".wav", ".mov", ".avi", ".m4a"]

/-- The extension of the final component of the URL path, empty for a
directory-like path, matching _ext(u.path) in mirror_assets.py. -/
def urlPathExt (u : Url) : String :=
  if u.dirSlash then "" else extOf (u.segs.getLastD "")

/-- Model of _pick_bucket in mirror_assets.py, applied to the URL path. -/
def pickBucket (u : Url) : String :=
  let e := urlPathExt u
  if e ∈ CSS_EXT then "css"
  else if e ∈ JS_EXT then "js"
  else if e ∈ IMAGE_EXT then "img"
  else if e ∈ FONT_EXT then "font"
  else if e ∈ MEDIA_EXT then "media"
  else "misc"

/-- Model of AssetMirror._target_for: the mirror location of an asset URL
relative to the mirror root, as a segment list. A directory-like URL (a
trailing slash, or a final component without an extension) gets a
synthetic index file whose extension is guessed from the bucket. -/
def targetFor (u : Url) : List String :=
  let host := if u.host = "" then "site" else u.host
  if u.dirSlash ∨ u.segs = [] ∨ extOf (u.segs.getLastD "") = "" then
    let b := pickBucket u
    (host :: u.segs) ++ ["index" ++ (if b = "css" then ".css" else if b = "js" then ".js" else ".bin")]
  else
    host :: u.segs

/-- Resolution of a relative path reference against a base URL, the slice
of urllib.parse.urljoin exercised by CSS url(...) tokens: drop the final
component of the base path (unless the base path is directory-like),
append the token segments, and remove dot segments. -/
def joinRel (base : Url) (toks : List String) (tokDirSlash : Bool) : Url :=
  ⟨base.host,
   resolveDots ((if base.dirSlash then base.segs else base.segs.dropLast) ++ toks),
   tokDirSlash⟩

/-- Model of _same_host_or_sub in mirror_assets.py, for hosts already in
lowercase without a port. -/
def sameHostOrSub (host root : String) : Bool :=
  host == root || ("." ++ root).toList.isSuffixOf host.toList

theorem targetFor_clean (u : Url)
    (hh : cleanSeg u.host) (hs : u.segs.all cleanSeg) :
    (targetFor u).all cleanSeg := by
  unfold targetFor
  have hh2 : cleanSeg (if u.host = "" then "site" else u.host) := by
    by_cases h : u.host = ""
    · rw [if_pos h]
      decide
    · rw [if_neg h]
      exact hh
  by_cases hidx : u.dirSlash ∨ u.segs = [] ∨ extOf (u.segs.getLastD "") = ""
  · rw [if_pos hidx]
    simp only [List.all_append, List.all_cons, Bool.and_eq_true]
    refine ⟨⟨hh2, hs⟩, ?_⟩
    by_cases h1 : pickBucket u = "css"
    · simp only [h1, if_pos rfl]
      decide
    · by_cases h2 : pickBucket u = "js"
      · simp only [if_neg h1, h2, if_pos rfl]
        decide
      · simp only [if_neg h1, if_neg h2]
        decide
  · rw [if_neg hidx]
    simp only [List.all_cons, Bool.and_eq_true]
    exact ⟨hh2, hs⟩

/-! ## AssetMirror state model

The run-scoped mutable state of one AssetMirror instance: the AssetMap
(url to mirror-relative path), the list of network fetches issued, the
files written under the mirror root, and the rows appended to the assets
sink (local path none models the empty local_path column).
Fetch outcomes come from an oracle function so theorems quantify over
network behaviour. Body content is a string; Python truthiness of the
bytes body corresponds to the string being nonempty.
-/

structure FR where
  status : Nat
  ctype : String
  body : String
deriving DecidableEq

structure MState where
  amap : List (Url × List String)
  fetchLog : List Url
  written : List (List String × String)
  rows : List (Url × Nat × String × Option (List String))
deriving DecidableEq

def emptyM : MState :=
  ⟨[], [], [], []⟩

/-- Dictionary lookup on the association-list AssetMap. -/
def mlookup : List (Url × List String) → Url → Option (List String)
  | [], _ => none
  | (k, v) :: rest, u => if k = u then some v else mlookup rest u

/-- Result of mirroring one reference: either a local relative path that
the HTML attribute is rewritten to, or the original absolute URL kept in
place. -/
inductive RW
  | localPath (p : List String)
  | originalUrl (u : Url)
deriving DecidableEq

/-- Model of AssetMirror._mirror_binary. pageDir is the directory of the
page destination file, as segments under the mirror root; the returned
localPath is relative to it, as _abs_to_rel computes. A map hit returns
the cached path with no fetch; a fetch with status 200 and nonempty body
writes the file, logs a row with the local path, and caches the path; any
other outcome logs a row with an empty local path and keeps the original
URL. -/
def mirrorBinary (fetch : Url → FR) (st : MState) (url : Url) (pageDir : List String) :
    MState × RW :=
  match mlookup st.amap url with
  | some rel => (st, RW.localPath (relpathSegs rel pageDir))
  | none =>
    let r := fetch url
    let st1 : MState := { st with fetchLog := st.fetchLog ++ [url] }
    if r.status = 200 ∧ r.body ≠ "" then
      let rel := targetFor url
      ({ st1 with
          written := st1.written ++ [(rel, r.body)],
          rows := st1.rows ++ [(url, r.status, r.ctype, some rel)],
          amap := st1.amap ++ [(url, rel)] },
       RW.localPath (relpathSegs rel pageDir))
    else
      ({ st1 with rows := st1.rows ++ [(url, r.status, r.ctype, none)] },
       RW.originalUrl url)

/-- Model of the repl closure in AssetMirror._rewrite_css for one
url(...) token given as a relative path reference: resolve the token
against the stylesheet URL, skip it when out of scope, reuse the
AssetMap entry when present, otherwise fetch and mirror; the replacement
path is computed relative to cssDir, the directory of the mirrored
stylesheet. none means the token is left unchanged. -/
def replToken (fetch : Url → FR) (rootHost : String) (st : MState) (cssUrl : Url)
    (cssDir : List String) (toks : List String) : MState × Option (List String) :=
  let absU := joinRel cssUrl toks false
  if ¬ sameHostOrSub absU.host rootHost then (st, none)
  else
    match mlookup st.amap absU with
    | some known => (st, some (relpathSegs known cssDir))
    | none =>
      let r := fetch absU
      let st1 : MState := { st with fetchLog := st.fetchLog ++ [absU] }
      if r.status = 200 ∧ r.body ≠ "" then
        let rel := targetFor absU
        ({ st1 with
            written := st1.written ++ [(rel, r.body)],
            amap := st1.amap ++ [(absU, rel)],
            rows := st1.rows ++ [(absU, r.status, r.ctype, some rel)] },
         some (relpathSegs rel cssDir))
      else
        ({ st1 with rows := st1.rows ++ [(absU, r.status, r.ctype, none)] },
         none)

/-- Model of AssetMirror._mirror_css: like _mirror_binary but, on a
successful fetch, the stylesheet body is first rewritten token by token
through the same memoized map (the stored body abstracts the rewritten
text). toks lists the url(...) tokens of the stylesheet as relative
references. -/
def mirrorCssTokens (fetch : Url → FR) (rootHost : String) (st : MState) (url : Url)
    (pageDir : List String) (toks : List (List String)) : MState × RW :=
  match mlookup st.amap url with
  | some rel => (st, RW.localPath (relpathSegs rel pageDir))
  | none =>
    let r := fetch url
    let st1 : MState := { st with fetchLog := st.fetchLog ++ [url] }
    if r.status = 200 ∧ r.body ≠ "" then
      let rel := targetFor url
      let st2 := toks.foldl (fun acc t => (replToken fetch rootHost acc url rel.dropLast t).1) st1
      ({ st2 with
          written := st2.written ++ [(rel, r.body)],
          rows := st2.rows ++ [(url, r.status, r.ctype, some rel)],
          amap := st2.amap ++ [(url, rel)] },
       RW.localPath (relpathSegs rel pageDir))
    else
      ({ st1 with rows := st1.rows ++ [(url, r.status, r.ctype, none)] },
       RW.originalUrl url)

/-! ## Crawl frontier model

Sequential model of the worker loop of crawl_to_zip in crawler.py: a
FIFO queue q, the seen and in_queue membership sets (lists kept
duplicate free by construction, mirroring Python sets), and log, the
sequence of pages for which a pages.csv row was written. Every fetch is
assumed to succeed with a 200 text/html response, and the links function
gives, per page, the discovered links that already passed the _is_http,
_english_allowed and _same_domain filters, so that only the frontier
bookkeeping of lines 588 to 590 remains.
-/

structure CrawlState where
  q : List String
  seen : List String
  inQueue : List String
  log : List String
deriving DecidableEq

/-- Python set.add: append only when absent. -/
def addNew (u : String) (l : List String) : List String :=
  if u ∈ l then l else l ++ [u]

/-- One link admission, the guard of crawler.py line 589: admit only if
not seen, not queued, and the seen set is still below max_pages. -/
def enqStep (maxPages : Nat) (s : CrawlState) (l : String) : CrawlState :=
  if l ∉ s.seen ∧ l ∉ s.inQueue ∧ s.seen.length < maxPages then
    { s with q := s.q ++ [l], inQueue := s.inQueue ++ [l] }
  else
    s

/-- Processing of one dequeued URL on the success path of the worker:
the URL joins seen (line 536), a pages row is written (the log), and
every discovered link goes through admission. -/
def processUrl (maxPages : Nat) (links : String → List String) (s : CrawlState)
    (url : String) : CrawlState :=
  (links url).foldl (enqStep maxPages)
    { s with seen := addNew url s.seen, log := s.log ++ [url] }

/-- The worker loop: dequeue and process until the queue is empty (or
fuel runs out; any fuel at least the number of URLs ever enqueued drains
the queue). -/
def crawlLoop (maxPages : Nat) (links : String → List String) : Nat → CrawlState → CrawlState
  | 0, s => s
  | fuel + 1, s =>
    match s.q with
    | [] => s
    | u :: rest => crawlLoop maxPages links fuel (processUrl maxPages links { s with q := rest } u)

/-- Initial state of crawl_to_zip line 426: the seed is queued and in
in_queue; seen is empty. -/
def initCrawl (seed : String) : CrawlState :=
  ⟨[seed], [], [seed], []⟩

def runCrawl (maxPages : Nat) (links : String → List String) (fuel : Nat) (seed : String) :
    CrawlState :=
  crawlLoop maxPages links fuel (initCrawl seed)

/-- A concrete admission-passing link graph: the seed page s links to
three distinct pages a, b, c, none of which links further. Its reachable
set from s is listed in exReach. -/
def exLinks : String → List String :=
  fun u => if u = "s" then ["a", "b", "c"] else []

def exReach : List String :=
  ["s", "a", "b", "c"]

/-! ## RateLimiter model

Model of RateLimiter in crawler.py lines 43 to 53 over rational
timestamps. wait takes the monotonic time at which the caller reads the
clock inside the lock and returns the updated limiter plus the grant
time, the instant at which wait returns: if now is before the cursor the
caller sleeps until the cursor, and the clock read after the sleep is
the wake instant itself (exact sleep, no scheduling delay, the
idealisation most favourable to the code). -/

structure RL where
  interval : ℚ
  next : ℚ

/-- RateLimiter init with creation time t0: interval is
1 / max(rps, 0.1) and the cursor starts at the creation instant. -/
def RL.create (rps t0 : ℚ) : RL :=
  ⟨1 / max rps (1 / 10), t0⟩

/-- RateLimiter.wait: grant at max(now, next), then set the cursor to
max(next + interval, grant). -/
def RL.wait (rl : RL) (now : ℚ) : RL × ℚ :=
  (⟨rl.interval, max (rl.next + rl.interval) (max now rl.next)⟩, max now rl.next)

/-! ## Retry delays for 429 and 503 responses -/

/-- Model of crawler.py lines 507 to 517: with a numeric Retry-After
header (some ra) the sleep is min(int(retry_after), 30); otherwise it is
min(int(1.5 ** (attempt - 1)) + jitter, 30) with jitter drawn from
[0, 0.5]. -/
def crawlerThrottleSleep (retryAfter : Option Nat) (attempt : Nat) (jitter : ℚ) : ℚ :=
  match retryAfter with
  | some ra => min (ra : ℚ) 30
  | none => min (((Int.floor ((3 / 2 : ℚ) ^ (attempt - 1)) : ℤ) : ℚ) + jitter) 30

/-- Model of crawler_excel.py line 172: with a parsed numeric
Retry-After (some ra, already clamped nonnegative by _parse_retry_after)
the wait is max(0.5, ra) + jitter, otherwise min(8, 2 ** (tries - 1)) +
jitter, with jitter drawn from [0.2, 0.8]. -/
def excelRetryWait (retryAfter : Option ℚ) (tries : Nat) (jitter : ℚ) : ℚ :=
  (match retryAfter with
   | some ra => max (1 / 2) ra
   | none => min 8 ((2 : ℚ) ^ (tries - 1))) + jitter

/-! ## Image probe model -/

/-- Outcome of one HTTP request: a response with status and content
type, or a network-level error (timeout, connection failure), which the
code turns into the tuple (0, "", True). -/
inductive FetchOut
  | err
  | ok (status : Nat) (ctype : String)
deriving DecidableEq

/-- The escalation test of _probe_image line 281: a 200 whose content
type is missing or not image-like triggers a streamed GET. -/
def probeNeedGet (status : Nat) (ctype : String) : Bool :=
  (status == 200 && ctype == "") || (status == 200 && !(ctype.startsWith "image"))

/-- Model of _probe_image in crawler.py: HEAD first; on escalation a GET
whose body may be sniffed (sniffed is the image/kind string recovered
from the first bytes, empty when unrecognised); any network error gives
(0, "", broken true). Returns (status, ctype, broken). -/
def probeImage (head : FetchOut) (getr : FetchOut) (sniffed : String) :
    Nat × String × Bool :=
  match head with
  | FetchOut.err => (0, "", true)
  | FetchOut.ok s c =>
    if probeNeedGet s c then
      match getr with
      | FetchOut.err => (0, "", true)
      | FetchOut.ok s2 c2 =>
        let c3 := if s2 == 200 && !(c2.startsWith "image") then
            (if sniffed ≠ "" then sniffed else c2) else c2
        (s2, c3, decide (400 ≤ s2) || (s2 == 200 && !(c3.startsWith "image")))
    else
      (s, c, decide (400 ≤ s) || (s == 200 && !(c.startsWith "image")))

/-- The classification formula claimed by the spec: broken iff status at
least 400, or status 200 with a resolved content type that is not
image-like. -/
def brokenFormula (status : Nat) (ctype : String) : Bool :=
  decide (400 ≤ status) || (status == 200 && !(ctype.startsWith "image"))

/-! ## Frontier invariants

The state invariant maintained by the sequential worker loop: the queue
never holds duplicates, membership never leaves seen or in_queue, every
queued URL is registered in in_queue but not yet in seen, every logged
page is in seen, and the number of pages logged plus the queue backlog
equals the number of URLs ever admitted to the queue. -/

structure CrawlInv (s : CrawlState) : Prop where
  qNodup : s.q.Nodup
  seenNodup : s.seen.Nodup
  inQNodup : s.inQueue.Nodup
  logNodup : s.log.Nodup
  qSub : ∀ u ∈ s.q, u ∈ s.inQueue
  seenSub : ∀ u ∈ s.seen, u ∈ s.inQueue
  qNotSeen : ∀ u ∈ s.q, u ∉ s.seen
  logSub : ∀ u ∈ s.log, u ∈ s.seen
  qNotLog : ∀ u ∈ s.q, u ∉ s.log
  countEq : s.log.length + s.q.length = s.inQueue.length

theorem addNew_length_ge (u : String) (l : List String) :
    l.length ≤ (addNew u l).length := by
  unfold addNew
  by_cases h : u ∈ l
  · rw [if_pos h]
  · rw [if_neg h]
    simp

theorem addNew_of_not_mem (u : String) (l : List String) (h : u ∉ l) :
    addNew u l = l ++ [u] := by
  unfold addNew
  rw [if_neg h]

theorem nodup_append_singleton {α : Type} (l : List α) (a : α)
    (h1 : l.Nodup) (h2 : a ∉ l) : (l ++ [a]).Nodup := by
  rw [List.nodup_append_comm]
  exact List.nodup_cons.mpr ⟨h2, h1⟩

theorem enqStep_inv (mp : Nat) (s : CrawlState) (l : String) (h : CrawlInv s) :
    CrawlInv (enqStep mp s l) := by
  unfold enqStep
  by_cases hg : l ∉ s.seen ∧ l ∉ s.inQueue ∧ s.seen.length < mp
  · rw [if_pos hg]
    obtain ⟨hl1, hl2, _⟩ := hg
    have hlq : l ∉ s.q := fun hm => hl2 (h.qSub l hm)
    have hll : l ∉ s.log := fun hm => hl1 (h.logSub l hm)
    refine ⟨nodup_append_singleton _ _ h.qNodup hlq, h.seenNodup,
      nodup_append_singleton _ _ h.inQNodup hl2, h.logNodup, ?_, ?_, ?_, h.logSub, ?_, ?_⟩
    · intro u hu
      rcases List.mem_append.mp hu with hu | hu
      · exact List.mem_append.mpr (Or.inl (h.qSub u hu))
      · exact List.mem_append.mpr (Or.inr hu)
    · intro u hu
      exact List.mem_append.mpr (Or.inl (h.seenSub u hu))
    · intro u hu
      rcases List.mem_append.mp hu with hu | hu
      · exact h.qNotSeen u hu
      · rw [List.mem_singleton.mp hu]
        exact hl1
    · intro u hu
      rcases List.mem_append.mp hu with hu | hu
      · exact h.qNotLog u hu
      · rw [List.mem_singleton.mp hu]
        exact hll
    · simp only [List.length_append, List.length_singleton]
      have := h.countEq
      omega
  · rw [if_neg hg]
    exact h

theorem foldl_enqStep_inv (mp : Nat) (ls : List String) (s : CrawlState)
    (h : CrawlInv s) : CrawlInv (ls.foldl (enqStep mp) s) := by
  induction ls generalizing s with
  | nil => exact h
  | cons a rest ih => exact ih _ (enqStep_inv mp s a h)

theorem processUrl_inv (mp : Nat) (links : String → List String) (s : CrawlState)
    (u : String) (rest : List String) (hq : s.q = u :: rest) (h : CrawlInv s) :
    CrawlInv (processUrl mp links { s with q := rest } u) := by
  have hu_q : u ∈ s.q := by
    rw [hq]
    exact List.mem_cons_self u rest
  have hu_inQ : u ∈ s.inQueue := h.qSub u hu_q
  have hu_seen : u ∉ s.seen := h.qNotSeen u hu_q
  have hu_log : u ∉ s.log := h.qNotLog u hu_q
  have hcons : (u :: rest).Nodup := by
    have := h.qNodup
    rwa [hq] at this
  have hu_rest : u ∉ rest := (List.nodup_cons.mp hcons).1
  have hrest_nodup : rest.Nodup := (List.nodup_cons.mp hcons).2
  unfold processUrl
  apply foldl_enqStep_inv
  simp only
  rw [addNew_of_not_mem u s.seen hu_seen]
  refine ⟨hrest_nodup, nodup_append_singleton _ _ h.seenNodup hu_seen, h.inQNodup,
    nodup_append_singleton _ _ h.logNodup hu_log, ?_, ?_, ?_, ?_, ?_, ?_⟩
  · intro v hv
    exact h.qSub v (by rw [hq]; exact List.mem_cons_of_mem u hv)
  · intro v hv
    rcases List.mem_append.mp hv with hv | hv
    · exact h.seenSub v hv
    · rw [List.mem_singleton.mp hv]
      exact hu_inQ
  · intro v hv hvs
    rcases List.mem_append.mp hvs with hvs | hvs
    · exact h.qNotSeen v (by rw [hq]; exact List.mem_cons_of_mem u hv) hvs
    · rw [List.mem_singleton.mp hvs] at hv
      exact hu_rest hv
  · intro v hv
    rcases List.mem_append.mp hv with hv | hv
    · exact List.mem_append.mpr (Or.inl (h.logSub v hv))
    · exact List.mem_append.mpr (Or.inr hv)
  · intro v hv hvl
    rcases List.mem_append.mp hvl with hvl | hvl
    · exact h.qNotLog v (by rw [hq]; exact List.mem_cons_of_mem u hv) hvl
    · rw [List.mem_singleton.mp hvl] at hv
      exact hu_rest hv
  · simp only [List.length_append, List.length_singleton]
    have := h.countEq
    rw [hq] at this
    simp only [List.length_cons] at this
    omega

theorem crawlLoop_inv (mp : Nat) (links : String → List String) (fuel : Nat)
    (s : CrawlState) (h : CrawlInv s) : CrawlInv (crawlLoop mp links fuel s) := by
  induction fuel generalizing s with
  | zero => exact h
  | succ n ih =>
    unfold crawlLoop
    split
    · exact h
    · next u rest heq =>
      exact ih _ (processUrl_inv mp links s u rest heq h)

theorem initCrawl_inv (seed : String) : CrawlInv (initCrawl seed) := by
  refine ⟨?_, ?_, ?_, ?_, ?_, ?_, ?_, ?_, ?_, ?_⟩ <;> simp [initCrawl]

theorem enqStep_frozen (mp : Nat) (s : CrawlState) (l : String)
    (h : mp ≤ s.seen.length) : enqStep mp s l = s := by
  unfold enqStep
  rw [if_neg]
  intro hg
  have := hg.2.2
  omega

theorem foldl_enqStep_frozen (mp : Nat) (ls : List String) (s : CrawlState)
    (h : mp ≤ s.seen.length) : ls.foldl (enqStep mp) s = s := by
  induction ls with
  | nil => rfl
  | cons a rest ih =>
    rw [List.foldl_cons, enqStep_frozen mp s a h, ih]

/-! ## Claims C1, C2, C3 -/

/-- C1, counterexample: the claim that the total number of pages
processed equals min(M, max_pages) is false on the code. In the graph
exLinks, whose admission-passing reachable set from the seed s is
exReach of size M = 4, a run with max_pages = 2 drains completely and
processes 4 pages, not min(4, 2) = 2: the guard of crawler.py line 589
is only an admission check, while line 536 adds every drained URL to
seen unconditionally, so the three children admitted while seen held
only the seed are all still processed. -/
theorem crawl_total_ne_min_reachable_cap :
    ("s" ∈ exReach ∧ exReach.Nodup ∧ (∀ u ∈ exReach, ∀ v ∈ exLinks u, v ∈ exReach) ∧
      exReach.length = 4) ∧
    (runCrawl 2 exLinks 10 "s").q = [] ∧
    (runCrawl 2 exLinks 10 "s").log.length = 4 ∧
    (runCrawl 2 exLinks 10 "s").seen.length = 4 ∧
    min exReach.length 2 = 2 ∧
    (runCrawl 2 exLinks 10 "s").log.length ≠ min exReach.length 2 := by
  decide

/-- C1, amended: at completion (empty queue) the total number of pages
processed equals the number of distinct URLs ever admitted to the queue,
and the ceiling is only an admission cutoff: once the seen set has
reached max_pages, processing a page admits nothing new (neither the
queue nor in_queue grows), while already-queued work still drains and is
still counted, so the total can exceed max_pages. -/
theorem crawl_total_eq_enqueued_and_cutoff (maxPages fuel : Nat)
    (links : String → List String) (seed : String)
    (h : (runCrawl maxPages links fuel seed).q = []) :
    (runCrawl maxPages links fuel seed).log.length =
      (runCrawl maxPages links fuel seed).inQueue.length ∧
    ∀ s u, maxPages ≤ s.seen.length →
      (processUrl maxPages links s u).inQueue = s.inQueue ∧
      (processUrl maxPages links s u).q = s.q := by
  constructor
  · have hinv := crawlLoop_inv maxPages links fuel (initCrawl seed) (initCrawl_inv seed)
    have := hinv.countEq
    rw [show crawlLoop maxPages links fuel (initCrawl seed) = runCrawl maxPages links fuel seed from rfl] at this
    rw [h] at this
    simpa using this
  · intro s u hlen
    have hge : maxPages ≤ (addNew u s.seen).length :=
      le_trans hlen (addNew_length_ge u s.seen)
    unfold processUrl
    rw [foldl_enqStep_frozen _ _ _ hge]
    exact ⟨rfl, rfl⟩

/-- C1, witness for the amended theorem at a concrete completed run. -/
theorem crawl_total_eq_enqueued_and_cutoff_witness :
    (runCrawl 2 exLinks 10 "s").log.length =
      (runCrawl 2 exLinks 10 "s").inQueue.length :=
  (crawl_total_eq_enqueued_and_cutoff 2 10 exLinks "s" (by decide)).1

/-- C2, counterexample: both conjuncts of the claim fail on the code. In
the run of exLinks with max_pages = 2 the seen set ends with 4 elements,
exceeding max_pages, and the seed is simultaneously a member of seen and
of in_queue: the worker never removes a URL from in_queue (crawler.py
only ever adds at lines 426 and 590), so every processed URL belongs to
both sets from line 536 on. -/
theorem crawl_seen_exceeds_cap_and_overlap :
    2 < (runCrawl 2 exLinks 10 "s").seen.length ∧
    "s" ∈ (runCrawl 2 exLinks 10 "s").seen ∧
    "s" ∈ (runCrawl 2 exLinks 10 "s").inQueue := by
  decide

/-- C2, amended: seen is always a subset of in_queue (a processed URL
belongs to both sets; membership is never removed), and consequently the
seen set never has more elements than in_queue, the set of URLs ever
admitted; admission itself only accepts a URL lying in neither set while
the seen set is below max_pages. -/
theorem crawl_seen_subset_inQueue (maxPages fuel : Nat)
    (links : String → List String) (seed : String) :
    (∀ u ∈ (runCrawl maxPages links fuel seed).seen,
        u ∈ (runCrawl maxPages links fuel seed).inQueue) ∧
    (runCrawl maxPages links fuel seed).seen.length ≤
      (runCrawl maxPages links fuel seed).inQueue.length := by
  have hinv := crawlLoop_inv maxPages links fuel (initCrawl seed) (initCrawl_inv seed)
  refine ⟨hinv.seenSub, ?_⟩
  have hsub : (runCrawl maxPages links fuel seed).seen ⊆
      (runCrawl maxPages links fuel seed).inQueue := fun u hu => hinv.seenSub u hu
  exact (hinv.seenNodup.subperm hsub).length_le

/-- C3, confirmed: within one run every URL is processed as a page at
most once, for every link graph including cyclic ones: the admission
guard of crawler.py line 589 consults both seen and in_queue, in_queue
membership is never removed, and the seed enters in_queue at line 426,
so no URL is ever queued twice and the log of fetched pages has no
duplicates. -/
theorem crawl_pages_fetched_once (maxPages fuel : Nat)
    (links : String → List String) (seed : String) :
    (runCrawl maxPages links fuel seed).log.Nodup :=
  (crawlLoop_inv maxPages links fuel (initCrawl seed) (initCrawl_inv seed)).logNodup

/-! ## Claims C4, C8, C9, C10 -/

theorem mlookup_append_none (m : List (Url × List String)) (u : Url) (v : List String)
    (h : mlookup m u = none) : mlookup (m ++ [(u, v)]) u = some v := by
  induction m with
  | nil => simp [mlookup]
  | cons p rest ih =>
    obtain ⟨k, w⟩ := p
    rw [List.cons_append]
    unfold mlookup at h ⊢
    by_cases hk : k = u
    · rw [if_pos hk] at h
      exact absurd h (by simp)
    · rw [if_neg hk] at h ⊢
      exact ih h

/-- Fetch oracle that always fails with a 404. -/
def failFetch : Url → FR :=
  fun _ => ⟨404, "", ""⟩

/-- A concrete asset URL used in counterexamples and witnesses. -/
def exAsset : Url :=
  ⟨"a.test", ["logo.png"], false⟩

/-- C4, counterexample: the claim that each distinct asset URL triggers
at most one network fetch per run is false on the code when the fetch
fails: _mirror_binary enters the AssetMap only on a 200 response with a
nonempty body (mirror_assets.py lines 121 to 124), so after a 404 the
URL stays out of the map and a second reference to the same URL issues a
second network fetch. -/
theorem asset_refetch_after_failure :
    (mirrorBinary failFetch
        (mirrorBinary failFetch emptyM exAsset ["a.test"]).1 exAsset ["a.test"]).1.fetchLog =
      [exAsset, exAsset] ∧
    ¬((mirrorBinary failFetch
        (mirrorBinary failFetch emptyM exAsset ["a.test"]).1 exAsset ["a.test"]).1.fetchLog.length ≤ 1) := by
  decide

/-- C4, amended: the memoization invariant holds for successfully
mirrored assets: once a URL is in the AssetMap, both an HTML reference
(_mirror_binary) and a CSS url token (the repl closure of _rewrite_css)
reuse the cached path and issue no network fetch, and a successful fetch
enters the URL into the map; a failed fetch is not cached, so a later
reference fetches again. -/
theorem asset_memoized_after_success (fetch : Url → FR) (rootHost : String) (st : MState)
    (url cssUrl : Url) (pageDir cssDir rel : List String) (toks : List String)
    (ct body : String) :
    (mlookup st.amap url = some rel →
      mirrorBinary fetch st url pageDir = (st, RW.localPath (relpathSegs rel pageDir))) ∧
    (mlookup st.amap (joinRel cssUrl toks false) = some rel →
      sameHostOrSub (joinRel cssUrl toks false).host rootHost = true →
      replToken fetch rootHost st cssUrl cssDir toks = (st, some (relpathSegs rel cssDir))) ∧
    (mlookup st.amap url = none → fetch url = ⟨200, ct, body⟩ → body ≠ "" →
      mlookup (mirrorBinary fetch st url pageDir).1.amap url = some (targetFor url)) := by
  refine ⟨?_, ?_, ?_⟩
  · intro hm
    simp [mirrorBinary, hm]
  · intro hm hhost
    simp [replToken, hhost, hm]
  · intro hm hf hb
    simp [mirrorBinary, hm, hf, hb]
    exact mlookup_append_none st.amap url (targetFor url) hm

/-- C9, confirmed: when an asset fetch fails (non-200 status, and a
network exception is modelled by _fetch returning status 0), the
reference is handed back as the original absolute URL so the HTML keeps
pointing at the remote asset, a row with an empty local path is appended
to the assets sink, no file is written, the AssetMap is untouched, and
the call returns normally (mirror_assets.py lines 126 to 129; the
mirror_and_rewrite call is additionally wrapped in a try block at
crawler.py lines 617 to 624, so the page itself is never aborted). -/
theorem asset_failure_degrades (fetch : Url → FR) (st : MState) (url : Url)
    (pageDir : List String)
    (hnew : mlookup st.amap url = none)
    (hfail : ¬((fetch url).status = 200 ∧ (fetch url).body ≠ "")) :
    mirrorBinary fetch st url pageDir =
      ({ st with fetchLog := st.fetchLog ++ [url],
                 rows := st.rows ++ [(url, (fetch url).status, (fetch url).ctype, none)] },
       RW.originalUrl url) := by
  simp [mirrorBinary, hnew, hfail]

/-- C9, witness at a concrete failing fetch. -/
theorem asset_failure_degrades_witness :
    mirrorBinary failFetch emptyM exAsset ["a.test"] =
      (⟨[], [exAsset], [], [(exAsset, 404, "", none)]⟩, RW.originalUrl exAsset) :=
  asset_failure_degrades failFetch emptyM exAsset ["a.test"] rfl (by decide)

/-- C10, confirmed: a 200 response with an empty body is handled exactly
like a failure in both _mirror_binary and _mirror_css: the guard at
mirror_assets.py lines 121 and 175 requires a truthy body, so nothing is
written, the URL does not enter the AssetMap, a row with an empty local
path is recorded, the original URL is kept, and a later reference to the
same URL issues another network fetch. -/
theorem asset_empty_body_like_failure (fetch : Url → FR) (rootHost : String) (st : MState)
    (url : Url) (pageDir : List String) (ct : String) (toks : List (List String))
    (hnew : mlookup st.amap url = none)
    (hf : fetch url = ⟨200, ct, ""⟩) :
    mirrorBinary fetch st url pageDir =
      ({ st with fetchLog := st.fetchLog ++ [url],
                 rows := st.rows ++ [(url, 200, ct, none)] },
       RW.originalUrl url) ∧
    mirrorCssTokens fetch rootHost st url pageDir toks =
      ({ st with fetchLog := st.fetchLog ++ [url],
                 rows := st.rows ++ [(url, 200, ct, none)] },
       RW.originalUrl url) ∧
    (mirrorBinary fetch (mirrorBinary fetch st url pageDir).1 url pageDir).1.fetchLog =
      st.fetchLog ++ [url] ++ [url] := by
  have h1 : mirrorBinary fetch st url pageDir =
      ({ st with fetchLog := st.fetchLog ++ [url],
                 rows := st.rows ++ [(url, 200, ct, none)] }, RW.originalUrl url) := by
    simp [mirrorBinary, hnew, hf]
  refine ⟨h1, ?_, ?_⟩
  · simp [mirrorCssTokens, hnew, hf]
  · rw [h1]
    simp [mirrorBinary, hnew, hf]

/-- Fetch oracle returning a 200 with an empty body. -/
def emptyBodyFetch : Url → FR :=
  fun _ => ⟨200, "text/css", ""⟩

/-- C10, witness at a concrete empty-body fetch. -/
theorem asset_empty_body_like_failure_witness :
    mirrorBinary emptyBodyFetch emptyM exAsset ["a.test"] =
      (⟨[], [exAsset], [], [(exAsset, 200, "text/css", none)]⟩, RW.originalUrl exAsset) ∧
    mirrorCssTokens emptyBodyFetch "a.test" emptyM exAsset ["a.test"] [] =
      (⟨[], [exAsset], [], [(exAsset, 200, "text/css", none)]⟩, RW.originalUrl exAsset) ∧
    (mirrorBinary emptyBodyFetch
        (mirrorBinary emptyBodyFetch emptyM exAsset ["a.test"]).1 exAsset ["a.test"]).1.fetchLog =
      [exAsset, exAsset] :=
  asset_empty_body_like_failure emptyBodyFetch "a.test" emptyM exAsset ["a.test"] "text/css" [] rfl rfl

theorem resolveDots_clean (l : List String) (h : l.all cleanSeg) :
    resolveDots l = l := by
  unfold resolveDots
  rw [foldl_rdStep_clean l [] h]
  exact List.nil_append l

theorem all_dropLast (p : String → Bool) (l : List String) (h : l.all p) :
    l.dropLast.all p := by
  rw [List.all_eq_true] at h ⊢
  intro x hx
  rw [List.dropLast_eq_take] at hx
  exact h x (List.take_subset _ _ hx)

theorem joinRel_segs_clean (base : Url) (toks : List String) (b : Bool)
    (hs : base.segs.all cleanSeg) (ht : toks.all cleanSeg) :
    (joinRel base toks b).segs.all cleanSeg := by
  show (resolveDots ((if base.dirSlash then base.segs else base.segs.dropLast) ++ toks)).all cleanSeg
  have hpre : (if base.dirSlash then base.segs else base.segs.dropLast).all cleanSeg := by
    by_cases hd : base.dirSlash
    · rw [if_pos hd]
      exact hs
    · rw [if_neg hd]
      exact all_dropLast cleanSeg base.segs hs
  have happ : ((if base.dirSlash then base.segs else base.segs.dropLast) ++ toks).all cleanSeg := by
    rw [List.all_append]
    rw [Bool.and_eq_true]
    exact ⟨hpre, ht⟩
  rw [resolveDots_clean _ happ]
  exact happ

/-- Fetch oracle that always succeeds with an image body. -/
def okFetch : Url → FR :=
  fun _ => ⟨200, "image/png", "PNG"⟩

/-- A state whose AssetMap already holds the example asset. -/
def stCached : MState :=
  ⟨[(exAsset, ["a.test", "logo.png"])], [], [], []⟩

/-- C4, witness for the amended theorem: a map hit issues no fetch and
reuses the cached path, and a successful fetch enters the map. -/
theorem asset_memoized_after_success_witness :
    mirrorBinary okFetch stCached exAsset ["a.test"] =
      (stCached, RW.localPath (relpathSegs ["a.test", "logo.png"] ["a.test"])) ∧
    mlookup (mirrorBinary okFetch emptyM exAsset ["a.test"]).1.amap exAsset =
      some (targetFor exAsset) :=
  ⟨(asset_memoized_after_success okFetch "a.test" stCached exAsset exAsset ["a.test"]
      ["a.test"] ["a.test", "logo.png"] [] "image/png" "PNG").1 (by decide),
   (asset_memoized_after_success okFetch "a.test" emptyM exAsset exAsset ["a.test"]
      ["a.test"] ["a.test", "logo.png"] [] "image/png" "PNG").2.2 rfl rfl (by decide)⟩

/-- C8, confirmed: a relative url token inside a mirrored stylesheet is
resolved against the stylesheet URL (joinRel models that slice of
urljoin), the referenced asset is written at its _target_for location,
and the token is rewritten to the os.path.relpath of that location from
the directory of the mirrored stylesheet; resolving the rewritten path
against that directory (resolveDots of the concatenation) gives back
exactly the location of the mirrored asset. Stated for dot-free segment
lists, in-scope tokens, a URL not yet in the AssetMap, and a successful
fetch. -/
theorem css_token_rewrite_resolves (fetch : Url → FR) (rootHost : String) (st : MState)
    (cssUrl : Url) (toks : List String) (ct body : String)
    (hhost : sameHostOrSub (joinRel cssUrl toks false).host rootHost = true)
    (hnew : mlookup st.amap (joinRel cssUrl toks false) = none)
    (hf : fetch (joinRel cssUrl toks false) = ⟨200, ct, body⟩)
    (hb : body ≠ "")
    (hch : cleanSeg cssUrl.host = true)
    (hcs : cssUrl.segs.all cleanSeg = true)
    (hct : toks.all cleanSeg = true) :
    (replToken fetch rootHost st cssUrl ((targetFor cssUrl).dropLast) toks).2 =
      some (relpathSegs (targetFor (joinRel cssUrl toks false))
        ((targetFor cssUrl).dropLast)) ∧
    resolveDots ((targetFor cssUrl).dropLast ++
        relpathSegs (targetFor (joinRel cssUrl toks false))
          ((targetFor cssUrl).dropLast)) =
      targetFor (joinRel cssUrl toks false) ∧
    (targetFor (joinRel cssUrl toks false), body) ∈
      (replToken fetch rootHost st cssUrl ((targetFor cssUrl).dropLast) toks).1.written := by
  have hAsegs : (joinRel cssUrl toks false).segs.all cleanSeg :=
    joinRel_segs_clean cssUrl toks false hcs hct
  have hAclean : (targetFor (joinRel cssUrl toks false)).all cleanSeg :=
    targetFor_clean (joinRel cssUrl toks false) hch hAsegs
  have hCclean : (targetFor cssUrl).all cleanSeg := targetFor_clean cssUrl hch hcs
  have hDir : ((targetFor cssUrl).dropLast).all cleanSeg :=
    all_dropLast cleanSeg (targetFor cssUrl) hCclean
  refine ⟨?_, resolveDots_relpath _ _ hAclean hDir, ?_⟩
  · simp [replToken, hhost, hnew, hf, hb]
  · simp [replToken, hhost, hnew, hf, hb]

/-- C8, witness at the concrete example of the spec: a stylesheet at
css/style.css on the crawl host containing url(img/a.png). -/
theorem css_token_rewrite_resolves_witness :
    (replToken okFetch "a.test" emptyM ⟨"a.test", ["css", "style.css"], false⟩
        ((targetFor ⟨"a.test", ["css", "style.css"], false⟩).dropLast) ["img", "a.png"]).2 =
      some (relpathSegs (targetFor (joinRel ⟨"a.test", ["css", "style.css"], false⟩ ["img", "a.png"] false))
        ((targetFor ⟨"a.test", ["css", "style.css"], false⟩).dropLast)) ∧
    resolveDots ((targetFor ⟨"a.test", ["css", "style.css"], false⟩).dropLast ++
        relpathSegs (targetFor (joinRel ⟨"a.test", ["css", "style.css"], false⟩ ["img", "a.png"] false))
          ((targetFor ⟨"a.test", ["css", "style.css"], false⟩).dropLast)) =
      targetFor (joinRel ⟨"a.test", ["css", "style.css"], false⟩ ["img", "a.png"] false) ∧
    (targetFor (joinRel ⟨"a.test", ["css", "style.css"], false⟩ ["img", "a.png"] false), "PNG") ∈
      (replToken okFetch "a.test" emptyM ⟨"a.test", ["css", "style.css"], false⟩
        ((targetFor ⟨"a.test", ["css", "style.css"], false⟩).dropLast) ["img", "a.png"]).1.written :=
  css_token_rewrite_resolves okFetch "a.test" emptyM ⟨"a.test", ["css", "style.css"], false⟩
    ["img", "a.png"] "image/png" "PNG" (by decide) rfl rfl (by decide) (by decide) (by decide)
    (by decide)

/-! ## Claims C5, C6, C7 -/

/-- C5: the RateLimiter cursor update of crawler.py line 53 violates the
minimum-gap contract. A limiter created at t = 0 with rps = 1 (interval
1 second) grants a wait() call arriving at t = 0.5 immediately, but the
cursor then becomes max(0 + 1, 0.5) = 1, so a second call arriving at
t = 0.6 is granted at t = 1: the two grants are 0.5 seconds apart, less
than 1/rps. The second now is after the first grant, as the mutex
serialising the two callers guarantees. The same update rule max(next +
interval, now), instead of max(next, now) + interval, is also in
mirror_assets.py line 28. -/
theorem rate_limiter_close_grants :
    (RL.create 1 0).interval = 1 ∧
    ((RL.create 1 0).wait (1 / 2)).2 = 1 / 2 ∧
    (((RL.create 1 0).wait (1 / 2)).1.wait (3 / 5)).2 = 1 ∧
    (((RL.create 1 0).wait (1 / 2)).1.wait (3 / 5)).2 - ((RL.create 1 0).wait (1 / 2)).2 <
      (RL.create 1 0).interval := by
  norm_num [RL.create, RL.wait]

/-- C6, counterexample: the claim that a numeric Retry-After yields a
delay of min(Retry-After, cap) fails on crawler_excel.py line 172, one
of the two fetch paths the claim covers: there the wait is max(0.5,
Retry-After) plus jitter, so Retry-After 100 with jitter 0.5 waits 100.5
seconds, which differs from min(100, cap) for both caps present in the
code (30 in crawler.py, 8 in the crawler_excel backoff) and even exceeds
the header value itself. -/
theorem excel_retry_after_uncapped :
    excelRetryWait (some 100) 1 (1 / 2) = 201 / 2 ∧
    excelRetryWait (some 100) 1 (1 / 2) ≠ min (100 : ℚ) 30 ∧
    excelRetryWait (some 100) 1 (1 / 2) ≠ min (100 : ℚ) 8 ∧
    min (100 : ℚ) 30 < excelRetryWait (some 100) 1 (1 / 2) := by
  norm_num [excelRetryWait]

/-- C6, amended: in the crawl_to_zip fetch loop a numeric Retry-After on
a 429 or 503 yields a delay of exactly min(Retry-After, 30) instead of
the exponential backoff, so Retry-After 2 delays the next attempt by 2
seconds; in crawler_excel.fetch the delay is max(0.5, Retry-After) plus
a jitter of at least 0.2, which is at least the header value (hence at
least 2 seconds for Retry-After 2) but is not clamped by any cap. -/
theorem retry_after_delays (ra attempt tries : Nat) (jc j : ℚ) (hj : 1 / 5 ≤ j) :
    crawlerThrottleSleep (some ra) attempt jc = min (ra : ℚ) 30 ∧
    (2 : ℚ) ≤ crawlerThrottleSleep (some 2) attempt jc ∧
    (ra : ℚ) ≤ excelRetryWait (some (ra : ℚ)) tries j ∧
    (2 : ℚ) ≤ excelRetryWait (some 2) tries j := by
  refine ⟨rfl, by norm_num [crawlerThrottleSleep], ?_, ?_⟩
  · show (ra : ℚ) ≤ max (1 / 2) (ra : ℚ) + j
    have h1 : (ra : ℚ) ≤ max (1 / 2) (ra : ℚ) := le_max_right _ _
    linarith
  · show (2 : ℚ) ≤ max (1 / 2) 2 + j
    have h1 : max (1 / 2 : ℚ) 2 = 2 := by norm_num
    rw [h1]
    linarith

/-- C6, witness at Retry-After 2 with concrete jitters. -/
theorem retry_after_delays_witness :
    crawlerThrottleSleep (some 2) 1 0 = min (2 : ℚ) 30 ∧
    (2 : ℚ) ≤ crawlerThrottleSleep (some 2) 1 0 ∧
    ((2 : Nat) : ℚ) ≤ excelRetryWait (some ((2 : Nat) : ℚ)) 1 (1 / 2) ∧
    (2 : ℚ) ≤ excelRetryWait (some 2) 1 (1 / 2) :=
  retry_after_delays 2 1 1 0 (1 / 2) (by norm_num)

/-- C7, counterexample: the claim that the broken flag always equals the
status formula fails for network-level errors: _probe_image returns
(0, "", True) on a timeout or connection failure (crawler.py lines 282
to 287), while the formula at status 0 with empty type evaluates to
false, since 0 is below 400 and is not 200. -/
theorem probe_error_breaks_formula :
    probeImage FetchOut.err FetchOut.err "" = (0, "", true) ∧
    brokenFormula 0 "" = false ∧
    (probeImage FetchOut.err FetchOut.err "").2.2 ≠
      brokenFormula (probeImage FetchOut.err FetchOut.err "").1
        (probeImage FetchOut.err FetchOut.err "").2.1 := by
  decide

/-- C7, amended: whenever the probe obtains HTTP responses, that is the
HEAD succeeds and, if the probe escalates to a GET, the GET succeeds
too, the returned broken flag equals the formula status at least 400, or
status 200 with a resolved content type that is not image-like, applied
to the returned status and resolved type; a network-level error instead
reports (status 0, empty type, broken true). -/
theorem probe_broken_matches_formula (s : Nat) (c : String) (getr : FetchOut)
    (sniffed : String) (hg : probeNeedGet s c = true → getr ≠ FetchOut.err) :
    (probeImage (FetchOut.ok s c) getr sniffed).2.2 =
      brokenFormula (probeImage (FetchOut.ok s c) getr sniffed).1
        (probeImage (FetchOut.ok s c) getr sniffed).2.1 := by
  cases getr with
  | err =>
    have hng : probeNeedGet s c = false := by
      cases h : probeNeedGet s c
      · rfl
      · exact absurd rfl (hg h)
    simp [probeImage, brokenFormula, hng]
  | ok s2 c2 =>
    by_cases hng : probeNeedGet s c = true
    · simp [probeImage, brokenFormula, hng]
    · simp [probeImage, brokenFormula, hng]

/-- C7, witness: a 404 HEAD needs no GET and is broken, matching the
formula. -/
theorem probe_broken_matches_formula_witness :
    (probeImage (FetchOut.ok 404 "") FetchOut.err "").2.2 =
      brokenFormula (probeImage (FetchOut.ok 404 "") FetchOut.err "").1
        (probeImage (FetchOut.ok 404 "") FetchOut.err "").2.1 :=
  probe_broken_matches_formula 404 "" FetchOut.err "" (by decide)
